import Mathlib

/-!
Verification development for the OpenAI content-generation translation layer
(`packages/core/src/core/openAIContentGenerator.ts`).

The file shallowly embeds the translation functions of the source class
`OpenAIContentGenerator`:

* `normalizeContents`
* `convertToOpenAIMessages` (with its model-turn part loop and function-turn loop)
* `convertPartsToOpenAI`
* `convertToOpenAITools`
* the wire-request construction performed inside `generateContent` and
  `generateContentStream`
* `convertToGeminiResponse`
* `convertStreamChunkToGeminiResponse`

JavaScript's `JSON.parse` / `JSON.stringify` are modelled by an executable
JSON value type with a fuel-based recursive-descent reader and a serializer.
The reader follows the JSON grammar (literals, strings with escapes, numbers
kept as their literal numeral text, arrays, objects); numeric fine points such
as the leading-zero restriction are not enforced, which is irrelevant to every
theorem below (each theorem only distinguishes strings the reader accepts from
strings it rejects, on concrete inputs).

`Math.random().toString(36).substr(2, 9)` (the tool-call id suffix source) is
modelled by an explicit generator parameter `gen : Nat -> String`: the k-th
random draw of one translation pass is `gen k`.  Theorems about identifier
uniqueness are therefore explicit about what they assume of the entropy
source.
-/

/-- JSON values.  Numbers keep their literal numeral text, since no theorem
below depends on numeric interpretation. -/
inductive Json where
  | null : Json
  | bool (b : Bool) : Json
  | num (s : String) : Json
  | str (s : String) : Json
  | arr (xs : List Json) : Json
  | obj (kvs : List (String × Json)) : Json
deriving Repr

/-- Left brace character (written by code point to keep braces out of literals). -/
def lbraceChar : Char := Char.ofNat 123

/-- Right brace character. -/
def rbraceChar : Char := Char.ofNat 125

/-- Hex digit character for a value below 16 (lower case, as JS `toString(16)`). -/
def hexDigitChar (n : Nat) : Char :=
  if n < 10 then Char.ofNat (48 + n) else Char.ofNat (87 + n)

/-- Escape one character the way `JSON.stringify` does. -/
def escapeJsonChar (c : Char) : List Char :=
  if c = '"' then ['\\', '"']
  else if c = '\\' then ['\\', '\\']
  else if c = Char.ofNat 8 then ['\\', 'b']
  else if c = Char.ofNat 9 then ['\\', 't']
  else if c = Char.ofNat 10 then ['\\', 'n']
  else if c = Char.ofNat 12 then ['\\', 'f']
  else if c = Char.ofNat 13 then ['\\', 'r']
  else if c.toNat < 32 then
    ['\\', 'u', '0', '0', hexDigitChar (c.toNat / 16), hexDigitChar (c.toNat % 16)]
  else [c]

/-- Escape a whole string the way `JSON.stringify` does. -/
def escapeJsonString (s : String) : String :=
  String.mk (s.toList.foldr (fun c acc => escapeJsonChar c ++ acc) [])

mutual

/-- Model of `JSON.stringify` over `Json` values (compact form, no spaces,
matching the default JavaScript output). -/
def Json.stringify : Json → String
  | .null => "null"
  | .bool true => "true"
  | .bool false => "false"
  | .num s => s
  | .str s => "\"" ++ escapeJsonString s ++ "\""
  | .arr xs => "[" ++ Json.stringifyItems xs ++ "]"
  | .obj kvs => String.mk [lbraceChar] ++ Json.stringifyMembers kvs ++ String.mk [rbraceChar]

/-- Comma-separated serialization of array elements. -/
def Json.stringifyItems : List Json → String
  | [] => ""
  | [x] => Json.stringify x
  | x :: y :: rest => Json.stringify x ++ "," ++ Json.stringifyItems (y :: rest)

/-- Comma-separated serialization of object members. -/
def Json.stringifyMembers : List (String × Json) → String
  | [] => ""
  | [(k, v)] => "\"" ++ escapeJsonString k ++ "\":" ++ Json.stringify v
  | (k, v) :: m :: rest =>
      "\"" ++ escapeJsonString k ++ "\":" ++ Json.stringify v ++ "," ++
        Json.stringifyMembers (m :: rest)

end

/-- JSON whitespace. -/
def isJsonWs (c : Char) : Bool :=
  c = ' ' || c = Char.ofNat 9 || c = Char.ofNat 10 || c = Char.ofNat 13

/-- Drop leading JSON whitespace. -/
def skipWs : List Char → List Char
  | [] => []
  | c :: rest => if isJsonWs c then skipWs rest else c :: rest

/-- Match an exact character sequence, returning the remainder. -/
def stripPrefixChars : List Char → List Char → Option (List Char)
  | [], cs => some cs
  | _ :: _, [] => none
  | p :: ps, c :: cs => if c = p then stripPrefixChars ps cs else none

/-- Unescape a single-character escape code. -/
def unescapeJsonChar (c : Char) : Char :=
  if c = 'b' then Char.ofNat 8
  else if c = 'f' then Char.ofNat 12
  else if c = 'n' then Char.ofNat 10
  else if c = 'r' then Char.ofNat 13
  else if c = 't' then Char.ofNat 9
  else c

/-- Hex digit predicate. -/
def isHexDigitChar (c : Char) : Bool :=
  c.isDigit || ('a' ≤ c && c ≤ 'f') || ('A' ≤ c && c ≤ 'F')

/-- Value of a hex digit character. -/
def hexVal (c : Char) : Nat :=
  if c.isDigit then c.toNat - 48
  else if 'a' ≤ c && c ≤ 'f' then c.toNat - 87
  else c.toNat - 55

/-- Read a JSON string body (after the opening quote), returning the decoded
characters and the remainder after the closing quote. -/
def readStringBody : Nat → List Char → Option (List Char × List Char)
  | 0, _ => none
  | _ + 1, [] => none
  | fuel + 1, c :: rest =>
    if c = '"' then some ([], rest)
    else if c = '\\' then
      match rest with
      | [] => none
      | e :: rest2 =>
        if e = 'u' then
          match rest2 with
          | h1 :: h2 :: h3 :: h4 :: rest3 =>
            if isHexDigitChar h1 && isHexDigitChar h2 && isHexDigitChar h3 && isHexDigitChar h4 then
              (readStringBody fuel rest3).map fun p =>
                (Char.ofNat (((hexVal h1 * 16 + hexVal h2) * 16 + hexVal h3) * 16 + hexVal h4)
                   :: p.1, p.2)
            else none
          | _ => none
        else if e = '"' || e = '\\' || e = '/' || e = 'b' || e = 'f' || e = 'n' ||
            e = 'r' || e = 't' then
          (readStringBody fuel rest2).map fun p => (unescapeJsonChar e :: p.1, p.2)
        else none
    else (readStringBody fuel rest).map fun p => (c :: p.1, p.2)

/-- Read an optional fraction component of a JSON number (the leading
characters joined with the remainder). -/
def readFrac : List Char → Option (List Char × List Char)
  | [] => some ([], [])
  | c :: r =>
    if c = '.' then
      let p := r.span Char.isDigit
      if p.1.isEmpty then none else some ('.' :: p.1, p.2)
    else some ([], c :: r)

/-- Read an optional exponent component of a JSON number. -/
def readExp : List Char → Option (List Char × List Char)
  | [] => some ([], [])
  | c :: r =>
    if c = 'e' || c = 'E' then
      match r with
      | [] => none
      | s :: r2 =>
        if s = '+' || s = '-' then
          let p := r2.span Char.isDigit
          if p.1.isEmpty then none else some (c :: s :: p.1, p.2)
        else
          let p := (s :: r2).span Char.isDigit
          if p.1.isEmpty then none else some (c :: p.1, p.2)
    else some ([], c :: r)

/-- Read a JSON number, keeping its literal text. -/
def readNumber (cs : List Char) : Option (Json × List Char) :=
  let signSplit : List Char × List Char :=
    match cs with
    | c :: r => if c = '-' then ([c], r) else ([], cs)
    | [] => ([], [])
  let ds := signSplit.2.span Char.isDigit
  if ds.1.isEmpty then none
  else
    match readFrac ds.2 with
    | none => none
    | some f =>
      match readExp f.2 with
      | none => none
      | some e => some (Json.num (String.mk (signSplit.1 ++ ds.1 ++ f.1 ++ e.1)), e.2)

mutual

/-- Read one JSON value (fuel-based recursive descent). -/
def readValue : Nat → List Char → Option (Json × List Char)
  | 0, _ => none
  | fuel + 1, cs =>
    match skipWs cs with
    | [] => none
    | c :: rest =>
      if c = 'n' then (stripPrefixChars ['u', 'l', 'l'] rest).map fun r => (Json.null, r)
      else if c = 't' then (stripPrefixChars ['r', 'u', 'e'] rest).map fun r => (Json.bool true, r)
      else if c = 'f' then
        (stripPrefixChars ['a', 'l', 's', 'e'] rest).map fun r => (Json.bool false, r)
      else if c = '"' then
        (readStringBody (rest.length + 1) rest).map fun p => (Json.str (String.mk p.1), p.2)
      else if c = '[' then
        match skipWs rest with
        | [] => none
        | c2 :: r2 =>
          if c2 = ']' then some (Json.arr [], r2)
          else (readArrayItems fuel (c2 :: r2)).map fun p => (Json.arr p.1, p.2)
      else if c = lbraceChar then
        match skipWs rest with
        | [] => none
        | c2 :: r2 =>
          if c2 = rbraceChar then some (Json.obj [], r2)
          else (readObjectMembers fuel (c2 :: r2)).map fun p => (Json.obj p.1, p.2)
      else readNumber (c :: rest)

/-- Read the comma-separated items of a non-empty JSON array. -/
def readArrayItems : Nat → List Char → Option (List Json × List Char)
  | 0, _ => none
  | fuel + 1, cs =>
    match readValue fuel cs with
    | none => none
    | some (v, r) =>
      match skipWs r with
      | [] => none
      | c :: r2 =>
        if c = ',' then
          (readArrayItems fuel r2).map fun p => (v :: p.1, p.2)
        else if c = ']' then some ([v], r2)
        else none

/-- Read the comma-separated members of a non-empty JSON object. -/
def readObjectMembers : Nat → List Char → Option (List (String × Json) × List Char)
  | 0, _ => none
  | fuel + 1, cs =>
    match skipWs cs with
    | [] => none
    | c :: rest =>
      if c = '"' then
        match readStringBody (rest.length + 1) rest with
        | none => none
        | some (k, r) =>
          match skipWs r with
          | [] => none
          | c2 :: r2 =>
            if c2 = ':' then
              match readValue fuel r2 with
              | none => none
              | some (v, r3) =>
                match skipWs r3 with
                | [] => none
                | c3 :: r4 =>
                  if c3 = ',' then
                    (readObjectMembers fuel r4).map fun p => ((String.mk k, v) :: p.1, p.2)
                  else if c3 = rbraceChar then some ([(String.mk k, v)], r4)
                  else none
            else none
      else none

end

/-- Model of `JSON.parse`: accepts exactly the strings the reader consumes
entirely (up to trailing whitespace), returning the parsed value. -/
def Json.parse (s : String) : Option Json :=
  match readValue (s.length + 1) s.toList with
  | some (j, rest) => if (skipWs rest).isEmpty then some j else none
  | none => none

/-- JavaScript truthiness of a JSON value (`null`, `false`, `0`, `""` are
falsy).  Numeric zero is approximated by the numeral `"0"`; every theorem
below uses this predicate only on concrete object/string values. -/
def jsTruthy : Json → Bool
  | .null => false
  | .bool b => b
  | .num s => s ≠ "0"
  | .str s => s ≠ ""
  | .arr _ => true
  | .obj _ => true

example : Json.parse "null" = some Json.null := rfl
example : Json.parse "not json" = none := rfl
example : Json.stringify (Json.obj [("a", Json.num "1")]) = "\x7b\"a\":1\x7d" := rfl

namespace SePilot

/-- Canonical request part, as the source's duck-typed dispatch distinguishes
them: a bare string, an object with a `text` attribute, an `inlineData`
attribute, a `functionCall` attribute, a `functionResponse` attribute, or an
object with none of the recognized attributes (`other`), which every
translation site silently ignores. -/
inductive Part where
  | str (s : String) : Part
  | text (t : String) : Part
  | inlineData (mimeType : String) (data : String) : Part
  | functionCall (name : String) (args : Json) : Part
  | functionResponse (name : String) (response : Json) : Part
  | other : Part

/-- Canonical turn (`Content` of `@google/genai`): a role string and an
optional parts list (the TypeScript `parts` field is optional). -/
structure Content where
  role : String
  parts : Option (List Part)

/-- One element of a contents sequence handed to `normalizeContents`: either a
turn object (which exposes a `role` attribute) or a part (which does not). -/
inductive NormElem where
  | cont (c : Content) : NormElem
  | part (p : Part) : NormElem

/-- The accepted input shapes of `normalizeContents`: an array, a bare string,
or a single non-array non-string value. -/
inductive ContentsInput where
  | list (l : List NormElem) : ContentsInput
  | str (s : String) : ContentsInput
  | single (e : NormElem) : ContentsInput

/-- View of a sequence element in a parts position.  A `Content` object
carries none of the recognized part attributes (`text`, `inlineData`,
`functionCall`, `functionResponse`), so every consumer of parts treats it
exactly like an unrecognized object part. -/
def NormElem.asPart : NormElem → Part
  | .cont _ => Part.other
  | .part p => p

/-- Does the first element of the array expose a `role` attribute?  Mirrors
`contents[0] && typeof contents[0] === 'object' && 'role' in contents[0]`:
only turn objects have `role`; strings are not objects. -/
def firstHasRole : List NormElem → Bool
  | NormElem.cont _ :: _ => true
  | _ => false

/-- Embedding of `normalizeContents` (source lines 180–195).  An array is
returned unchanged when it is empty or its first element has a `role`
attribute; a non-empty array of parts is wrapped as one user turn; a string
becomes one user turn with a single text part; any other single value becomes
one user turn with that value as its sole part. -/
def normalizeContents : ContentsInput → List NormElem
  | .list l =>
    if l.length = 0 || firstHasRole l then l
    else [NormElem.cont ⟨"user", some (l.map NormElem.asPart)⟩]
  | .str s => [NormElem.cont ⟨"user", some [Part.text s]⟩]
  | .single e => [NormElem.cont ⟨"user", some [e.asPart]⟩]

/-- Wire content block (`ChatCompletionContentPart`). -/
inductive ContentBlock where
  | text (t : String) : ContentBlock
  | image_url (url : String) : ContentBlock
deriving Repr, DecidableEq

/-- Wire user-message content: a plain string or a block list. -/
inductive UserContent where
  | str (s : String) : UserContent
  | blocks (l : List ContentBlock) : UserContent
deriving Repr, DecidableEq

/-- The block (if any) one part contributes in `convertPartsToOpenAI`:
strings and text parts give text blocks, inline data gives a data-URI image
block, any other shape is silently dropped. -/
def partToBlock : Part → Option ContentBlock
  | .str s => some (ContentBlock.text s)
  | .text t => some (ContentBlock.text t)
  | .inlineData m d => some (ContentBlock.image_url ("data:" ++ m ++ ";base64," ++ d))
  | _ => none

/-- Is the block a text block? -/
def blockIsText : ContentBlock → Bool
  | .text _ => true
  | .image_url _ => false

/-- The `text` attribute read from a block in the all-text collapse. -/
def blockText : ContentBlock → String
  | .text t => t
  | .image_url _ => ""

/-- Embedding of `convertPartsToOpenAI` (source lines 266–292): encode each
part to a block, and collapse an all-text block list to one newline-joined
string. -/
def convertPartsToOpenAI (ps : List Part) : UserContent :=
  let blocks := ps.filterMap partToBlock
  if blocks.all blockIsText then UserContent.str (String.intercalate "\n" (blocks.map blockText))
  else UserContent.blocks blocks

/-- Wire tool call attached to an assistant message (type is always
`function`). -/
structure ToolCall where
  id : String
  name : String
  arguments : String
deriving Repr, DecidableEq

/-- Wire chat message. -/
inductive OpenAIMessage where
  | system (content : String) : OpenAIMessage
  | user (content : UserContent) : OpenAIMessage
  | assistant (content : Option String) (tool_calls : List ToolCall) : OpenAIMessage
  | tool (content : String) (tool_call_id : String) : OpenAIMessage
deriving Repr, DecidableEq

/-- Embedding of the model-turn part loop (source lines 217–234): collect the
text fragments and the tool calls of a model turn's parts, in order.  `gen k`
is the k-th random id suffix drawn in this translation pass; the returned
counter is the next unused draw index. -/
def processModelParts (gen : Nat → String) : List Part → Nat → List String × List ToolCall × Nat
  | [], k => ([], [], k)
  | Part.str s :: rest, k =>
    let r := processModelParts gen rest k
    (s :: r.1, r.2.1, r.2.2)
  | Part.text t :: rest, k =>
    let r := processModelParts gen rest k
    (t :: r.1, r.2.1, r.2.2)
  | Part.functionCall n args :: rest, k =>
    let r := processModelParts gen rest (k + 1)
    (r.1, ⟨"call_" ++ gen k, n, Json.stringify args⟩ :: r.2.1, r.2.2)
  | _ :: rest, k => processModelParts gen rest k

/-- Embedding of the function-turn loop (source lines 249–259): one wire tool
message per `functionResponse` part, content the JSON-serialized response,
`tool_call_id` the response's name. -/
def functionTurnMessages : List Part → List OpenAIMessage
  | [] => []
  | Part.functionResponse n r :: rest =>
    OpenAIMessage.tool (Json.stringify r) n :: functionTurnMessages rest
  | _ :: rest => functionTurnMessages rest

/-- Embedding of one iteration of the `convertToOpenAIMessages` loop (source
lines 200–261): the wire messages one sequence element contributes, together
with the updated id-draw counter.  An element without a `role` attribute, or
with an unrecognized role, contributes nothing. -/
def convertContent (gen : Nat → String) (e : NormElem) (k : Nat) : List OpenAIMessage × Nat :=
  match e with
  | .part _ => ([], k)
  | .cont c =>
    if c.role = "user" then
      ([OpenAIMessage.user (convertPartsToOpenAI (c.parts.getD []))], k)
    else if c.role = "model" then
      match c.parts with
      | none => ([OpenAIMessage.assistant none []], k)
      | some ps =>
        let r := processModelParts gen ps k
        let content : Option String :=
          if r.1.length > 0 then some (String.intercalate "\n" r.1)
          else if r.2.1.length = 0 then some ""
          else none
        ([OpenAIMessage.assistant content r.2.1], r.2.2)
    else if c.role = "function" then
      (match c.parts with
       | none => []
       | some ps => functionTurnMessages ps, k)
    else ([], k)

/-- Embedding of `convertToOpenAIMessages` (source lines 197–264), threading
the id-draw counter left to right. -/
def convertToOpenAIMessagesAux (gen : Nat → String) : List NormElem → Nat → List OpenAIMessage
  | [], _ => []
  | e :: rest, k =>
    let r := convertContent gen e k
    r.1 ++ convertToOpenAIMessagesAux gen rest r.2

/-- `convertToOpenAIMessages` starting from the first random draw. -/
def convertToOpenAIMessages (gen : Nat → String) (contents : List NormElem) : List OpenAIMessage :=
  convertToOpenAIMessagesAux gen contents 0

/-- Canonical function declaration of a tool group. -/
structure FunctionDeclaration where
  name : String
  description : Option String
  parameters : Option Json

/-- Canonical tool group. -/
structure ToolGroup where
  functionDeclarations : Option (List FunctionDeclaration)

/-- Wire tool definition (type is always `function`). -/
structure OpenAITool where
  name : String
  description : Option String
  parameters : Json

/-- Conversion of one group list, mirroring the nested loops of
`convertToOpenAITools` (source lines 294–315); `func.parameters || {}`
replaces a missing or falsy schema by the empty object. -/
def convertToolGroups : List ToolGroup → List OpenAITool
  | [] => []
  | t :: rest =>
    (match t.functionDeclarations with
     | some fds =>
       fds.map fun f =>
         ⟨f.name, f.description,
          match f.parameters with
          | some p => if jsTruthy p then p else Json.obj []
          | none => Json.obj []⟩
     | none => []) ++ convertToolGroups rest

/-- Embedding of `convertToOpenAITools`: absent or empty input yields an empty
list. -/
def convertToOpenAITools : Option (List ToolGroup) → List OpenAITool
  | none => []
  | some ts => convertToolGroups ts

/-- Per-request config (`request.config`), with the fields the source reads. -/
structure GenConfig where
  temperature : Option Rat
  topP : Option Rat
  maxOutputTokens : Option Nat
  systemInstruction : Option String
  responseMimeType : Option String
  responseJsonSchema : Option Json

/-- The `config || \x7b\x7d` fallback object. -/
def emptyGenConfig : GenConfig := ⟨none, none, none, none, none, none⟩

/-- Legacy `request.generationConfig` sampling fields. -/
structure LegacyGenerationConfig where
  temperature : Option Rat
  topP : Option Rat
  maxOutputTokens : Option Nat

/-- Canonical generate request, restricted to the fields the two generate
methods read. -/
structure GenerateRequest where
  contents : ContentsInput
  config : Option GenConfig
  generationConfig : Option LegacyGenerationConfig
  tools : Option (List ToolGroup)

/-- Wire chat-completion request, restricted to the fields the source sets
from the request (the constant `model` field and the stream flag are
omitted). -/
structure OpenAIRequest where
  messages : List OpenAIMessage
  tools : Option (List OpenAITool)
  temperature : Rat
  top_p : Rat
  max_tokens : Option Nat
  response_format : Option String

/-- The fixed JSON-mode instruction template, embedding the serialized
schema. -/
def jsonSchemaInstruction (schema : Json) : String :=
  "You must respond with valid JSON that conforms to this schema: " ++
    Json.stringify schema ++ ". Return ONLY the JSON object, no additional text."

/-- `config.responseMimeType === 'application/json' && config.responseJsonSchema`. -/
def jsonModeCond (cfg : GenConfig) : Bool :=
  (cfg.responseMimeType == some "application/json") &&
    (cfg.responseJsonSchema.map jsTruthy).getD false

/-- Truthiness of `config.systemInstruction`. -/
def sysInstrCond (cfg : GenConfig) : Bool :=
  match cfg.systemInstruction with
  | some s => s != ""
  | none => false

/-- Embedding of the wire-request construction inside `generateContent`
(source lines 44–82): translate the normalized turns, prepend the JSON-mode
instruction and then the system instruction when applicable, and fill the
sampling fields with their fallback chains. -/
def generateContentWireRequest (gen : Nat → String) (req : GenerateRequest) : OpenAIRequest :=
  let config := req.config.getD emptyGenConfig
  let contents := normalizeContents req.contents
  let messages0 := convertToOpenAIMessages gen contents
  let jsonMode := jsonModeCond config
  let messages1 :=
    if jsonMode then
      OpenAIMessage.system (jsonSchemaInstruction (config.responseJsonSchema.getD Json.null))
        :: messages0
    else messages0
  let responseFormat : Option String := if jsonMode then some "json_object" else none
  let messages2 :=
    if sysInstrCond config then
      OpenAIMessage.system (config.systemInstruction.getD "") :: messages1
    else messages1
  let tools := convertToOpenAITools req.tools
  { messages := messages2
    tools := if tools.length > 0 then some tools else none
    temperature :=
      (config.temperature.orElse
        (fun _ => req.generationConfig.bind LegacyGenerationConfig.temperature)).getD 0
    top_p :=
      (config.topP.orElse
        (fun _ => req.generationConfig.bind LegacyGenerationConfig.topP)).getD 1
    max_tokens :=
      config.maxOutputTokens.orElse
        (fun _ => req.generationConfig.bind LegacyGenerationConfig.maxOutputTokens)
    response_format := responseFormat }

/-- Embedding of the wire-request construction inside `generateContentStream`
(source lines 91–130), which duplicates the non-streaming construction (the
`stream: true` flag is not represented). -/
def generateContentStreamWireRequest (gen : Nat → String) (req : GenerateRequest) :
    OpenAIRequest :=
  let config := req.config.getD emptyGenConfig
  let contents := normalizeContents req.contents
  let messages0 := convertToOpenAIMessages gen contents
  let jsonMode := jsonModeCond config
  let messages1 :=
    if jsonMode then
      OpenAIMessage.system (jsonSchemaInstruction (config.responseJsonSchema.getD Json.null))
        :: messages0
    else messages0
  let responseFormat : Option String := if jsonMode then some "json_object" else none
  let messages2 :=
    if sysInstrCond config then
      OpenAIMessage.system (config.systemInstruction.getD "") :: messages1
    else messages1
  let tools := convertToOpenAITools req.tools
  { messages := messages2
    tools := if tools.length > 0 then some tools else none
    temperature :=
      (config.temperature.orElse
        (fun _ => req.generationConfig.bind LegacyGenerationConfig.temperature)).getD 0
    top_p :=
      (config.topP.orElse
        (fun _ => req.generationConfig.bind LegacyGenerationConfig.topP)).getD 1
    max_tokens :=
      config.maxOutputTokens.orElse
        (fun _ => req.generationConfig.bind LegacyGenerationConfig.maxOutputTokens)
    response_format := responseFormat }

/-- Wire completion tool call: a function call (the only kind the assembler
reads) or some other tool-call kind (skipped by the `'function' in toolCall`
guard). -/
inductive CompToolCall where
  | function (id : String) (name : String) (arguments : String) : CompToolCall
  | otherKind : CompToolCall
deriving Repr, DecidableEq

/-- Wire completion message. -/
structure CompletionMessage where
  content : Option String
  tool_calls : Option (List CompToolCall)
deriving Repr, DecidableEq

/-- Wire completion choice. -/
structure Choice where
  message : CompletionMessage
deriving Repr, DecidableEq

/-- Wire usage object (token counts are required fields on the wire). -/
structure Usage where
  prompt_tokens : Nat
  completion_tokens : Nat
  total_tokens : Nat
deriving Repr, DecidableEq

/-- Wire chat completion. -/
structure ChatCompletion where
  choices : List Choice
  usage : Option Usage
deriving Repr, DecidableEq

/-- Failure modes of the assemblers: reading the first choice of an empty
choices list (a TypeError in the source), or a tool-call arguments string that
`JSON.parse` rejects (a SyntaxError in the source).  Both propagate uncaught
to the caller. -/
inductive AssemblerError where
  | noChoice : AssemblerError
  | badArgsJson (s : String) : AssemblerError
deriving Repr, DecidableEq

/-- Canonical usage metadata. -/
structure UsageMetadata where
  promptTokenCount : Nat
  candidatesTokenCount : Nat
  totalTokenCount : Nat
deriving Repr, DecidableEq

/-- Canonical response: the single candidate's role and parts, the usage
metadata (absent on stream deltas), and the derived `text` field. -/
structure GeminiResponse where
  candidateRole : String
  parts : List Part
  usageMetadata : Option UsageMetadata
  text : String

/-- Embedding of the completion tool-call loop (source lines 325–336):
`JSON.parse(toolCall.function.arguments || '\x7b\x7d')`, failing on the first
arguments string the parser rejects. -/
def parseToolCalls : List CompToolCall → Except AssemblerError (List Part)
  | [] => .ok []
  | CompToolCall.function _ n a :: rest =>
    let argStr := if a = "" then String.mk [lbraceChar, rbraceChar] else a
    match Json.parse argStr with
    | some j => (parseToolCalls rest).map fun ps => Part.functionCall n j :: ps
    | none => .error (AssemblerError.badArgsJson argStr)
  | CompToolCall.otherKind :: rest => parseToolCalls rest

/-- Embedding of the text-extraction loop shared by both assemblers (source
lines 339–345 and 401–407): the first part with a truthy `text` attribute. -/
def extractTextContent : List Part → String
  | [] => ""
  | Part.text t :: rest => if t = "" then extractTextContent rest else t
  | _ :: rest => extractTextContent rest

/-- Embedding of `convertToGeminiResponse` (source lines 317–372): read the
first choice unconditionally, emit a text part for truthy content, one
function-call part per function tool call, default missing usage counts to
zero, and derive `text`. -/
def convertToGeminiResponse (completion : ChatCompletion) :
    Except AssemblerError GeminiResponse :=
  match completion.choices with
  | [] => .error AssemblerError.noChoice
  | choice :: _ =>
    let textParts : List Part :=
      match choice.message.content with
      | some c => if c = "" then [] else [Part.text c]
      | none => []
    match (match choice.message.tool_calls with
           | some tcs => parseToolCalls tcs
           | none => .ok []) with
    | .error e => .error e
    | .ok callParts =>
      let parts := textParts ++ callParts
      .ok
        { candidateRole := "model"
          parts := parts
          usageMetadata :=
            some
              ⟨(completion.usage.map Usage.prompt_tokens).getD 0,
               (completion.usage.map Usage.completion_tokens).getD 0,
               (completion.usage.map Usage.total_tokens).getD 0⟩
          text := extractTextContent parts }

/-- Wire stream tool-call delta function fragment. -/
structure StreamFunction where
  name : Option String
  arguments : Option String
deriving Repr, DecidableEq

/-- Wire stream tool-call delta. -/
structure StreamToolCall where
  function : Option StreamFunction
deriving Repr, DecidableEq

/-- Wire stream delta. -/
structure StreamDelta where
  content : Option String
  tool_calls : Option (List StreamToolCall)
deriving Repr, DecidableEq

/-- Wire stream choice. -/
structure StreamChoice where
  delta : Option StreamDelta
deriving Repr, DecidableEq

/-- Wire stream chunk. -/
structure ChatCompletionChunk where
  choices : List StreamChoice
deriving Repr, DecidableEq

/-- Embedding of the stream tool-call loop (source lines 387–398): only
deltas with a truthy function name produce a part; a truthy arguments
fragment is parsed (failure propagates), otherwise the args default to the
empty object. -/
def streamToolParts : List StreamToolCall → Except AssemblerError (List Part)
  | [] => .ok []
  | tc :: rest =>
    match tc.function with
    | none => streamToolParts rest
    | some f =>
      match f.name with
      | none => streamToolParts rest
      | some n =>
        if n = "" then streamToolParts rest
        else
          match f.arguments with
          | some a =>
            if a = "" then (streamToolParts rest).map fun ps => Part.functionCall n (Json.obj []) :: ps
            else
              match Json.parse a with
              | some j => (streamToolParts rest).map fun ps => Part.functionCall n j :: ps
              | none => .error (AssemblerError.badArgsJson a)
          | none => (streamToolParts rest).map fun ps => Part.functionCall n (Json.obj []) :: ps

/-- Embedding of `convertStreamChunkToGeminiResponse` (source lines 374–424):
optional chaining over the possibly-missing first choice and delta, at most
one text part, the truthy-named tool-call deltas, no usage metadata. -/
def convertStreamChunkToGeminiResponse (chunk : ChatCompletionChunk) :
    Except AssemblerError GeminiResponse :=
  let delta : Option StreamDelta := chunk.choices.head?.bind StreamChoice.delta
  let textParts : List Part :=
    match delta.bind StreamDelta.content with
    | some c => if c = "" then [] else [Part.text c]
    | none => []
  match (match delta.bind StreamDelta.tool_calls with
         | some tcs => streamToolParts tcs
         | none => .ok []) with
  | .error e => .error e
  | .ok callParts =>
    let parts := textParts ++ callParts
    .ok
      { candidateRole := "model"
        parts := parts
        usageMetadata := none
        text := extractTextContent parts }

end SePilot

namespace SePilot

/-- The text fragments of a turn's parts (bare strings and `text` parts), the
way the model-turn loop collects them. -/
def turnTextParts : List Part → List String
  | [] => []
  | Part.str s :: rest => s :: turnTextParts rest
  | Part.text t :: rest => t :: turnTextParts rest
  | _ :: rest => turnTextParts rest

/-- Is the part a function-call part? -/
def Part.isFunctionCall : Part → Bool
  | .functionCall _ _ => true
  | _ => false

/-- Is the part a text-bearing part (bare string or `text` attribute)? -/
def Part.isTextual : Part → Bool
  | .str _ => true
  | .text _ => true
  | _ => false

/-- Number of function-call parts in a list. -/
def countFunctionCalls (ps : List Part) : Nat := (ps.filter Part.isFunctionCall).length

/-- The wire tool message a single part of a function turn should contribute,
per the claim: one message per `functionResponse` part, none for any other
part. -/
def toolMessageOfPart : Part → Option OpenAIMessage
  | Part.functionResponse n r => some (OpenAIMessage.tool (Json.stringify r) n)
  | _ => none

/-- The value of the first `text` part of a parts list, or the empty string
when there is none (the claims' definition of the derived `text` field). -/
def firstTextValue (ps : List Part) : String :=
  (ps.findSome? fun p => match p with
    | Part.text t => some t
    | _ => none).getD ""

/-- The content of an assistant message (`none` for other roles). -/
def OpenAIMessage.assistantContent : OpenAIMessage → Option (Option String)
  | .assistant c _ => some c
  | _ => none

/-- The tool-call ids of an assistant message (`none` for other roles). -/
def OpenAIMessage.assistantToolIds : OpenAIMessage → Option (List String)
  | .assistant _ tcs => some (tcs.map ToolCall.id)
  | _ => none

/-- Does the stream tool-call delta carry a truthy function name? -/
def hasTruthyName (tc : StreamToolCall) : Bool :=
  match tc.function with
  | some f =>
    match f.name with
    | some n => n ≠ ""
    | none => false
  | none => false

/-- The tool-call deltas of a chunk's first choice (empty when any link of
the optional chain is missing). -/
def deltaToolCalls (chunk : ChatCompletionChunk) : List StreamToolCall :=
  ((chunk.choices.head?.bind StreamChoice.delta).bind StreamDelta.tool_calls).getD []

/-- A deterministic id-suffix source: the n-th draw is n letters `a`.  It is
injective, which models an entropy source that never repeats. -/
def genRep (n : Nat) : String := String.mk (List.replicate n 'a')

/-- A colliding id-suffix source: every draw returns the same string. -/
def genConst (_ : Nat) : String := "z"

example : normalizeContents (ContentsInput.list []) = [] := rfl
example :
    normalizeContents (ContentsInput.str "Hello") =
      [NormElem.cont ⟨"user", some [Part.text "Hello"]⟩] := rfl
example :
    convertToOpenAIMessages genRep [NormElem.cont ⟨"model", none⟩] =
      [OpenAIMessage.assistant none []] := rfl
example :
    convertToOpenAIMessages genRep [NormElem.cont ⟨"model", some []⟩] =
      [OpenAIMessage.assistant (some "") []] := rfl
example :
    convertToOpenAIMessages genRep
        [NormElem.cont ⟨"model", some [Part.text "hi", Part.functionCall "f" Json.null]⟩] =
      [OpenAIMessage.assistant (some "hi") [⟨"call_", "f", "null"⟩]] := rfl
example :
    convertToOpenAIMessages genConst
        [NormElem.cont ⟨"model",
          some [Part.functionCall "f" Json.null, Part.functionCall "g" Json.null]⟩] =
      [OpenAIMessage.assistant none [⟨"call_z", "f", "null"⟩, ⟨"call_z", "g", "null"⟩]] := rfl
example :
    convertToGeminiResponse ⟨[⟨⟨some "hi", none⟩⟩], none⟩ =
      .ok ⟨"model", [Part.text "hi"], some ⟨0, 0, 0⟩, "hi"⟩ := rfl
example : convertToGeminiResponse ⟨[], some ⟨1, 2, 3⟩⟩ = .error AssemblerError.noChoice := rfl
example :
    convertToGeminiResponse
        ⟨[⟨⟨none, some [CompToolCall.function "i" "f" "not json"]⟩⟩], none⟩ =
      .error (AssemblerError.badArgsJson "not json") := rfl
example :
    convertStreamChunkToGeminiResponse ⟨[]⟩ = .ok ⟨"model", [], none, ""⟩ := rfl

end SePilot

namespace SePilot

/-- A completion tool call with an arguments string that is present,
non-empty, and rejected by the JSON reader (the claims' notion of malformed
arguments). -/
def malformedArgs : CompToolCall → Bool
  | CompToolCall.function _ _ a => (a != "") && (Json.parse a).isNone
  | CompToolCall.otherKind => false

/-- A completion whose first choice is clean but whose second choice carries a
malformed function tool call. -/
def c5cexCompletion : ChatCompletion :=
  ⟨[⟨⟨some "hi", none⟩⟩,
    ⟨⟨none, some [CompToolCall.function "id1" "f" "not json"]⟩⟩], none⟩

/-- A completion whose first choice carries a malformed function tool call. -/
def c5witCompletion : ChatCompletion :=
  ⟨[⟨⟨none, some [CompToolCall.function "id1" "f" "oops"]⟩⟩], none⟩

/-- A request setting a system instruction together with JSON response mode. -/
def c1req : GenerateRequest :=
  ⟨ContentsInput.str "Hello",
   some ⟨none, none, none, some "sys", some "application/json",
     some (Json.obj [("type", Json.str "object")])⟩,
   none, none⟩

/-- A request whose per-request config sets only the temperature. -/
def c7req : GenerateRequest :=
  ⟨ContentsInput.str "x", some ⟨some 1, none, none, none, none, none⟩, none, none⟩

/-- A completion with text content and no usage object. -/
def c8wCompletion : ChatCompletion := ⟨[⟨⟨some "hello", none⟩⟩], none⟩

/-- The canonical response assembled from `c8wCompletion`. -/
def c8wResponse : GeminiResponse :=
  ⟨"model", [Part.text "hello"], some ⟨0, 0, 0⟩, "hello"⟩

/-- Appending to a fixed string on the left is cancellable. -/
lemma string_append_left_cancel {s a b : String} (h : s ++ a = s ++ b) : a = b := by
  have hd := congrArg String.data h
  rw [String.data_append, String.data_append] at hd
  exact String.ext (List.append_cancel_left hd)

/-- `genRep` never repeats a draw. -/
lemma genRep_injective : Function.Injective genRep := by
  intro a b h
  have := congrArg (fun s => s.data.length) h
  simpa [genRep] using this

/-- The text fragments collected by the model-part loop. -/
lemma processModelParts_fst (gen : Nat → String) (ps : List Part) (k : Nat) :
    (processModelParts gen ps k).1 = turnTextParts ps := by
  induction ps generalizing k with
  | nil => rfl
  | cons p rest ih => cases p <;> simp [processModelParts, turnTextParts, ih]

/-- The ids generated by the model-part loop are `call_` plus the draws at
consecutive indices, one per function-call part. -/
lemma processModelParts_ids (gen : Nat → String) (ps : List Part) (k : Nat) :
    ((processModelParts gen ps k).2.1).map ToolCall.id =
      (List.range (countFunctionCalls ps)).map (fun i => "call_" ++ gen (k + i)) := by
  induction ps generalizing k with
  | nil => simp [processModelParts, countFunctionCalls]
  | cons p rest ih =>
    cases p with
    | functionCall n args =>
      have hc : countFunctionCalls (Part.functionCall n args :: rest) =
          countFunctionCalls rest + 1 := by
        simp [countFunctionCalls, Part.isFunctionCall, List.filter_cons]
      rw [hc, List.range_succ_eq_map, List.map_cons]
      simp only [processModelParts, List.map_cons]
      refine congrArg₂ List.cons (by simp) ?_
      rw [ih (k + 1), List.map_map]
      exact List.map_congr_left fun a _ =>
        congrArg (fun m => "call_" ++ gen m) (by omega)
    | str s =>
      simpa [processModelParts, countFunctionCalls, Part.isFunctionCall, List.filter_cons]
        using ih k
    | text t =>
      simpa [processModelParts, countFunctionCalls, Part.isFunctionCall, List.filter_cons]
        using ih k
    | inlineData m d =>
      simpa [processModelParts, countFunctionCalls, Part.isFunctionCall, List.filter_cons]
        using ih k
    | functionResponse n r =>
      simpa [processModelParts, countFunctionCalls, Part.isFunctionCall, List.filter_cons]
        using ih k
    | other =>
      simpa [processModelParts, countFunctionCalls, Part.isFunctionCall, List.filter_cons]
        using ih k

/-- One tool call is generated per function-call part. -/
lemma processModelParts_toolCalls_length (gen : Nat → String) (ps : List Part) (k : Nat) :
    (processModelParts gen ps k).2.1.length = countFunctionCalls ps := by
  have h := congrArg List.length (processModelParts_ids gen ps k)
  simpa using h

/-- Closed form of the translation of a single model turn with a parts
list. -/
lemma aux_model_some (gen : Nat → String) (k : Nat) (ps : List Part) :
    convertToOpenAIMessagesAux gen [NormElem.cont ⟨"model", some ps⟩] k =
      [OpenAIMessage.assistant
        (if 0 < (turnTextParts ps).length then
          some (String.intercalate "\n" (turnTextParts ps))
         else if countFunctionCalls ps = 0 then some "" else none)
        (processModelParts gen ps k).2.1] := by
  simp [convertToOpenAIMessagesAux, convertContent, processModelParts_fst,
    processModelParts_toolCalls_length]

/-- The function-turn loop is the filter-map over `functionResponse` parts. -/
lemma functionTurnMessages_eq_filterMap (ps : List Part) :
    functionTurnMessages ps = ps.filterMap toolMessageOfPart := by
  induction ps with
  | nil => rfl
  | cons p rest ih =>
    cases p <;> simp [functionTurnMessages, toolMessageOfPart, List.filterMap_cons, ih]

end SePilot

namespace SePilot

/-- C3 (amended): the Content Normalizer returns an array unchanged when it is
empty or when its first element exposes a `role` attribute; a non-empty array
whose first element lacks `role` is wrapped as a single user turn whose parts
are the array's elements viewed as parts. -/
theorem c3_normalizer (l : List NormElem) :
    (l = [] → normalizeContents (ContentsInput.list l) = l) ∧
    (firstHasRole l = true → normalizeContents (ContentsInput.list l) = l) ∧
    (l ≠ [] → firstHasRole l = false →
      normalizeContents (ContentsInput.list l) =
        [NormElem.cont ⟨"user", some (l.map NormElem.asPart)⟩]) := by
  refine ⟨fun h => ?_, fun h => ?_, fun h1 h2 => ?_⟩
  · subst h; rfl
  · simp [normalizeContents, h]
  · simp [normalizeContents, h2, List.length_eq_zero, h1]

/-- C3 witness: a singleton array of turns is returned unchanged. -/
theorem c3_normalizer_witness :
    normalizeContents (ContentsInput.list [NormElem.cont ⟨"user", some []⟩]) =
      [NormElem.cont ⟨"user", some []⟩] :=
  (c3_normalizer [NormElem.cont ⟨"user", some []⟩]).2.1 rfl

/-- C3 counterexample: the claim says the empty sequence is wrapped as a
single user turn, but `normalizeContents` returns the empty array unchanged
(the `contents.length === 0` disjunct of the identity branch). -/
theorem c3_normalizer_counterexample :
    normalizeContents (ContentsInput.list []) = [] ∧
      normalizeContents (ContentsInput.list []) ≠
        [NormElem.cont ⟨"user", some []⟩] :=
  ⟨rfl, fun h => List.noConfusion h⟩

/-- C2 (amended): for a model turn with a parts list, the assistant message's
content is the newline-joined text when any text part is present (regardless
of function calls), null when there are function calls but no text, and the
empty string when there is neither; when the turn's `parts` field is absent
entirely, the content is null. -/
theorem c2_model_content (gen : Nat → String) (k : Nat) (ps : List Part) :
    (turnTextParts ps ≠ [] →
      ∃ tcs, convertToOpenAIMessagesAux gen [NormElem.cont ⟨"model", some ps⟩] k =
        [OpenAIMessage.assistant (some (String.intercalate "\n" (turnTextParts ps))) tcs]) ∧
    (turnTextParts ps = [] → countFunctionCalls ps ≠ 0 →
      ∃ tcs, tcs ≠ [] ∧
        convertToOpenAIMessagesAux gen [NormElem.cont ⟨"model", some ps⟩] k =
          [OpenAIMessage.assistant none tcs]) ∧
    (turnTextParts ps = [] → countFunctionCalls ps = 0 →
      convertToOpenAIMessagesAux gen [NormElem.cont ⟨"model", some ps⟩] k =
        [OpenAIMessage.assistant (some "") []]) ∧
    convertToOpenAIMessagesAux gen [NormElem.cont ⟨"model", none⟩] k =
      [OpenAIMessage.assistant none []] := by
  refine ⟨fun h => ?_, fun h1 h2 => ?_, fun h1 h2 => ?_, rfl⟩
  · refine ⟨(processModelParts gen ps k).2.1, ?_⟩
    rw [aux_model_some, if_pos (List.length_pos.mpr h)]
  · refine ⟨(processModelParts gen ps k).2.1, ?_, ?_⟩
    · intro hnil
      exact h2 (by simpa [hnil] using (processModelParts_toolCalls_length gen ps k).symm)
    · rw [aux_model_some, if_neg (by simp [h1]), if_neg h2]
  · have htc : (processModelParts gen ps k).2.1 = [] :=
      List.length_eq_zero.mp (by rw [processModelParts_toolCalls_length, h2])
    rw [aux_model_some, if_neg (by simp [h1]), if_pos h2, htc]

/-- C2 witness: a model turn with one text part and one function call part
yields an assistant message whose content is the text. -/
theorem c2_model_content_witness :
    ∃ tcs,
      convertToOpenAIMessagesAux genRep
          [NormElem.cont ⟨"model", some [Part.text "hi", Part.functionCall "f" Json.null]⟩] 0 =
        [OpenAIMessage.assistant (some "hi") tcs] := by
  simpa using
    (c2_model_content genRep 0 [Part.text "hi", Part.functionCall "f" Json.null]).1
      (by decide)

/-- C2 counterexample: a model turn whose `parts` field is absent has neither
text parts nor function-call parts, yet its translated content is null, not
the empty string the claim requires. -/
theorem c2_model_content_counterexample :
    (convertToOpenAIMessages genRep [NormElem.cont ⟨"model", none⟩]).map
        OpenAIMessage.assistantContent = [some none] ∧
      (convertToOpenAIMessages genRep [NormElem.cont ⟨"model", none⟩]).map
          OpenAIMessage.assistantContent ≠ [some (some "")] :=
  ⟨rfl, by decide⟩

/-- C4 (amended): the generated tool-call ids of one translated model turn are
pairwise distinct provided the random id-suffix source never repeats a draw
(the source draws `Math.random` suffixes without any uniqueness re-check). -/
theorem c4_tool_call_ids (gen : Nat → String) (hinj : Function.Injective gen) (k : Nat)
    (ps : List Part) (content : Option String) (tcs : List ToolCall)
    (h : convertToOpenAIMessagesAux gen [NormElem.cont ⟨"model", some ps⟩] k =
      [OpenAIMessage.assistant content tcs]) :
    (tcs.map ToolCall.id).Nodup := by
  rw [aux_model_some] at h
  simp only [List.cons.injEq, and_true, OpenAIMessage.assistant.injEq] at h
  rw [← h.2, processModelParts_ids]
  refine List.Nodup.map ?_ (List.nodup_range _)
  intro a b hab
  have := hinj (string_append_left_cancel hab)
  omega

/-- C4 witness: with a non-repeating suffix source, the two ids of a
two-function-call model turn are distinct. -/
theorem c4_tool_call_ids_witness :
    ((([⟨"call_", "f", "null"⟩, ⟨"call_a", "g", "null"⟩] : List ToolCall).map
        ToolCall.id)).Nodup :=
  c4_tool_call_ids genRep genRep_injective 0
    [Part.functionCall "f" Json.null, Part.functionCall "g" Json.null] none
    [⟨"call_", "f", "null"⟩, ⟨"call_a", "g", "null"⟩] rfl

/-- C4 counterexample: the code draws the ids from `Math.random` with no
uniqueness re-check, so a colliding entropy source yields equal ids for the
two function calls of one turn — distinctness is not guaranteed by the
translation itself. -/
theorem c4_tool_call_ids_counterexample :
    (convertToOpenAIMessages genConst
        [NormElem.cont ⟨"model",
          some [Part.functionCall "f" Json.null, Part.functionCall "g" Json.null]⟩]).map
        OpenAIMessage.assistantToolIds = [some ["call_z", "call_z"]] ∧
      ¬ (["call_z", "call_z"] : List String).Nodup :=
  ⟨rfl, by decide⟩

/-- C6: a function-role turn contributes exactly one wire tool message per
`functionResponse` part — content the JSON-serialized response value,
`toolCallId` the part's name — and nothing for any other part; a turn without
a parts list contributes no messages. -/
theorem c6_function_turn (gen : Nat → String) (k : Nat) (ps : List Part) :
    convertToOpenAIMessagesAux gen [NormElem.cont ⟨"function", some ps⟩] k =
        ps.filterMap toolMessageOfPart ∧
      convertToOpenAIMessagesAux gen [NormElem.cont ⟨"function", none⟩] k = [] := by
  constructor
  · simpa [convertToOpenAIMessagesAux, convertContent] using
      functionTurnMessages_eq_filterMap ps
  · rfl

/-- C10: the Streaming Response Assembler is total on chunks with an empty
choices list, returning a model-role delta with empty parts and empty text,
while the non-streaming Response Assembler fails on a completion with an
empty choices list (it unconditionally reads the first choice). -/
theorem c10_empty_choices (chunk : ChatCompletionChunk) (hc : chunk.choices = [])
    (completion : ChatCompletion) (hc2 : completion.choices = []) :
    convertStreamChunkToGeminiResponse chunk = .ok ⟨"model", [], none, ""⟩ ∧
      convertToGeminiResponse completion = .error AssemblerError.noChoice := by
  constructor
  · simp [convertStreamChunkToGeminiResponse, hc, extractTextContent]
  · simp [convertToGeminiResponse, hc2]

/-- C10 witness: the concrete empty chunk and empty completion. -/
theorem c10_empty_choices_witness :
    convertStreamChunkToGeminiResponse ⟨[]⟩ = .ok ⟨"model", [], none, ""⟩ ∧
      convertToGeminiResponse ⟨[], none⟩ = .error AssemblerError.noChoice :=
  c10_empty_choices ⟨[]⟩ rfl ⟨[], none⟩ rfl

end SePilot

namespace SePilot

/-- C1: when the config sets JSON response mode (mime type
`application/json` plus a schema) and a system instruction, the wire message
list is [system instruction, JSON-schema instruction, ...translated turns]
and the response format is JSON-object mode; when only one of the two
conditions holds, only the applicable system message is prepended. -/
theorem c1_request_prepend (gen : Nat → String) (req : GenerateRequest) :
    (∀ s j, (req.config.getD emptyGenConfig).systemInstruction = some s → s ≠ "" →
      (req.config.getD emptyGenConfig).responseMimeType = some "application/json" →
      (req.config.getD emptyGenConfig).responseJsonSchema = some j → jsTruthy j = true →
      (generateContentWireRequest gen req).messages =
          OpenAIMessage.system s :: OpenAIMessage.system (jsonSchemaInstruction j) ::
            convertToOpenAIMessages gen (normalizeContents req.contents) ∧
        (generateContentWireRequest gen req).response_format = some "json_object") ∧
    (∀ j, sysInstrCond (req.config.getD emptyGenConfig) = false →
      (req.config.getD emptyGenConfig).responseMimeType = some "application/json" →
      (req.config.getD emptyGenConfig).responseJsonSchema = some j → jsTruthy j = true →
      (generateContentWireRequest gen req).messages =
          OpenAIMessage.system (jsonSchemaInstruction j) ::
            convertToOpenAIMessages gen (normalizeContents req.contents) ∧
        (generateContentWireRequest gen req).response_format = some "json_object") ∧
    (∀ s, (req.config.getD emptyGenConfig).systemInstruction = some s → s ≠ "" →
      jsonModeCond (req.config.getD emptyGenConfig) = false →
      (generateContentWireRequest gen req).messages =
          OpenAIMessage.system s ::
            convertToOpenAIMessages gen (normalizeContents req.contents) ∧
        (generateContentWireRequest gen req).response_format = none) := by
  refine ⟨fun s j hs hs' hm hj ht => ?_, fun j hsys hm hj ht => ?_, fun s hs hs' hjm => ?_⟩
  · have hjm : jsonModeCond (req.config.getD emptyGenConfig) = true := by
      simp [jsonModeCond, hm, hj, ht]
    have hsys : sysInstrCond (req.config.getD emptyGenConfig) = true := by
      simp [sysInstrCond, hs, hs']
    constructor
    · simp [generateContentWireRequest, convertToOpenAIMessages, hjm, hsys, hj, hs]
    · simp [generateContentWireRequest, hjm]
  · have hjm : jsonModeCond (req.config.getD emptyGenConfig) = true := by
      simp [jsonModeCond, hm, hj, ht]
    constructor
    · simp [generateContentWireRequest, convertToOpenAIMessages, hjm, hsys, hj]
    · simp [generateContentWireRequest, hjm]
  · have hsys : sysInstrCond (req.config.getD emptyGenConfig) = true := by
      simp [sysInstrCond, hs, hs']
    constructor
    · simp [generateContentWireRequest, convertToOpenAIMessages, hjm, hsys, hs]
    · simp [generateContentWireRequest, hjm]

/-- C1 witness: the request `c1req` (system instruction plus JSON mode)
yields both prepended system messages in order and JSON-object response
format. -/
theorem c1_request_prepend_witness :
    (generateContentWireRequest genRep c1req).messages =
        OpenAIMessage.system "sys" ::
          OpenAIMessage.system
            (jsonSchemaInstruction (Json.obj [("type", Json.str "object")])) ::
          convertToOpenAIMessages genRep (normalizeContents c1req.contents) ∧
      (generateContentWireRequest genRep c1req).response_format = some "json_object" :=
  (c1_request_prepend genRep c1req).1 "sys" (Json.obj [("type", Json.str "object")])
    rfl (by decide) rfl rfl rfl

/-- C7: in both generate methods the sampling fields follow the fallback
chain per-request config, then legacy generation config, then the defaults
(temperature 0, top-p 1, no max-token cap). -/
theorem c7_sampling_fallbacks (gen : Nat → String) (req : GenerateRequest) :
    ((∀ t, (req.config.getD emptyGenConfig).temperature = some t →
        (generateContentWireRequest gen req).temperature = t ∧
          (generateContentStreamWireRequest gen req).temperature = t) ∧
      ((req.config.getD emptyGenConfig).temperature = none →
        ∀ t, req.generationConfig.bind LegacyGenerationConfig.temperature = some t →
          (generateContentWireRequest gen req).temperature = t ∧
            (generateContentStreamWireRequest gen req).temperature = t) ∧
      ((req.config.getD emptyGenConfig).temperature = none →
        req.generationConfig.bind LegacyGenerationConfig.temperature = none →
        (generateContentWireRequest gen req).temperature = 0 ∧
          (generateContentStreamWireRequest gen req).temperature = 0)) ∧
    ((∀ t, (req.config.getD emptyGenConfig).topP = some t →
        (generateContentWireRequest gen req).top_p = t ∧
          (generateContentStreamWireRequest gen req).top_p = t) ∧
      ((req.config.getD emptyGenConfig).topP = none →
        ∀ t, req.generationConfig.bind LegacyGenerationConfig.topP = some t →
          (generateContentWireRequest gen req).top_p = t ∧
            (generateContentStreamWireRequest gen req).top_p = t) ∧
      ((req.config.getD emptyGenConfig).topP = none →
        req.generationConfig.bind LegacyGenerationConfig.topP = none →
        (generateContentWireRequest gen req).top_p = 1 ∧
          (generateContentStreamWireRequest gen req).top_p = 1)) ∧
    ((∀ m, (req.config.getD emptyGenConfig).maxOutputTokens = some m →
        (generateContentWireRequest gen req).max_tokens = some m ∧
          (generateContentStreamWireRequest gen req).max_tokens = some m) ∧
      ((req.config.getD emptyGenConfig).maxOutputTokens = none →
        ∀ m, req.generationConfig.bind LegacyGenerationConfig.maxOutputTokens = some m →
          (generateContentWireRequest gen req).max_tokens = some m ∧
            (generateContentStreamWireRequest gen req).max_tokens = some m) ∧
      ((req.config.getD emptyGenConfig).maxOutputTokens = none →
        req.generationConfig.bind LegacyGenerationConfig.maxOutputTokens = none →
        (generateContentWireRequest gen req).max_tokens = none ∧
          (generateContentStreamWireRequest gen req).max_tokens = none)) := by
  refine ⟨⟨fun t h => ?_, fun h t h2 => ?_, fun h h2 => ?_⟩,
    ⟨fun t h => ?_, fun h t h2 => ?_, fun h h2 => ?_⟩,
    ⟨fun m h => ?_, fun h m h2 => ?_, fun h h2 => ?_⟩⟩ <;>
    constructor <;>
    simp [generateContentWireRequest, generateContentStreamWireRequest, Option.orElse,
      h, *]

/-- C7 witness: a per-request temperature of 1 overrides the defaults in both
generate methods. -/
theorem c7_sampling_fallbacks_witness :
    (generateContentWireRequest genRep c7req).temperature = 1 ∧
      (generateContentStreamWireRequest genRep c7req).temperature = 1 :=
  (c7_sampling_fallbacks genRep c7req).1.1 1 rfl

end SePilot

namespace SePilot

/-- The defaulted empty-arguments object parses to the empty JSON object. -/
lemma parse_empty_obj : Json.parse (String.mk [lbraceChar, rbraceChar]) = some (Json.obj []) :=
  rfl

/-- A malformed function tool call anywhere in the list makes the tool-call
loop fail with a JSON-arguments error. -/
lemma parseToolCalls_error_of_malformed (tcs : List CompToolCall)
    (h : ∃ tc ∈ tcs, malformedArgs tc = true) :
    ∃ s, parseToolCalls tcs = .error (AssemblerError.badArgsJson s) := by
  induction tcs with
  | nil => simp at h
  | cons tc rest ih =>
    rcases h with ⟨tc0, hmem, hmal⟩
    rcases List.mem_cons.mp hmem with heq | hmem2
    · subst heq
      cases tc0 with
      | otherKind => simp [malformedArgs] at hmal
      | function id0 n a =>
        simp only [malformedArgs, Bool.and_eq_true, bne_iff_ne, ne_eq,
          Option.isNone_iff_eq_none] at hmal
        exact ⟨a, by simp [parseToolCalls, hmal.1, hmal.2]⟩
    · obtain ⟨s, hs⟩ := ih ⟨tc0, hmem2, hmal⟩
      cases tc with
      | otherKind => exact ⟨s, by simpa [parseToolCalls] using hs⟩
      | function id0 n a =>
        by_cases ha : a = ""
        · exact ⟨s, by simp [parseToolCalls, ha, parse_empty_obj, hs, Except.map]⟩
        · cases hpa : Json.parse a with
          | none => exact ⟨a, by simp [parseToolCalls, ha, hpa]⟩
          | some j => exact ⟨s, by simp [parseToolCalls, ha, hpa, hs, Except.map]⟩

/-- Without malformed arguments the tool-call loop succeeds. -/
lemma parseToolCalls_ok_of_wellformed (tcs : List CompToolCall)
    (h : ∀ tc ∈ tcs, malformedArgs tc = false) :
    ∃ ps, parseToolCalls tcs = .ok ps := by
  induction tcs with
  | nil => exact ⟨[], rfl⟩
  | cons tc rest ih =>
    obtain ⟨ps, hps⟩ := ih fun tc2 hm => h tc2 (List.mem_cons_of_mem _ hm)
    cases tc with
    | otherKind => exact ⟨ps, by simpa [parseToolCalls] using hps⟩
    | function id0 n a =>
      have hm := h _ (List.mem_cons_self _ _)
      by_cases ha : a = ""
      · exact ⟨Part.functionCall n (Json.obj []) :: ps,
          by simp [parseToolCalls, ha, parse_empty_obj, hps, Except.map]⟩
      · have hsome : ∃ j, Json.parse a = some j := by
          cases hj : Json.parse a with
          | some j => exact ⟨j, rfl⟩
          | none =>
            exfalso
            simp only [malformedArgs, hj] at hm
            simp [ha] at hm
        obtain ⟨j, hj⟩ := hsome
        exact ⟨Part.functionCall n j :: ps,
          by simp [parseToolCalls, ha, hj, hps, Except.map]⟩

/-- Every part emitted by the tool-call loop is a function-call part. -/
lemma parseToolCalls_ok_all_fc (tcs : List CompToolCall) (ps : List Part)
    (h : parseToolCalls tcs = .ok ps) :
    ∀ p ∈ ps, Part.isFunctionCall p = true := by
  induction tcs generalizing ps with
  | nil =>
    simp only [parseToolCalls, Except.ok.injEq] at h
    subst h; simp
  | cons tc rest ih =>
    cases tc with
    | otherKind => exact ih ps (by simpa [parseToolCalls] using h)
    | function id0 n a =>
      simp only [parseToolCalls] at h
      cases hp : Json.parse (if a = "" then String.mk [lbraceChar, rbraceChar] else a) with
      | none => rw [hp] at h; exact absurd h (by simp)
      | some j =>
        rw [hp] at h
        cases hrest : parseToolCalls rest with
        | error e => rw [hrest] at h; exact absurd h (by simp [Except.map])
        | ok qs =>
          rw [hrest] at h
          simp only [Except.map, Except.ok.injEq] at h
          subst h
          intro p hp2
          rcases List.mem_cons.mp hp2 with rfl | hmm2
          · rfl
          · exact ih qs hrest p hmm2

/-- A list of function-call parts has no truthy text part. -/
lemma no_text_extract (ps : List Part) (h : ∀ p ∈ ps, Part.isFunctionCall p = true) :
    extractTextContent ps = "" := by
  induction ps with
  | nil => rfl
  | cons p rest ih =>
    have htail := ih fun q hq => h q (List.mem_cons_of_mem _ hq)
    cases p with
    | text t => exact absurd (h _ (List.mem_cons_self _ _)) (by simp [Part.isFunctionCall])
    | str s => exact absurd (h _ (List.mem_cons_self _ _)) (by simp [Part.isFunctionCall])
    | inlineData m d => simpa [extractTextContent] using htail
    | functionCall n args => simpa [extractTextContent] using htail
    | functionResponse n r => simpa [extractTextContent] using htail
    | other => simpa [extractTextContent] using htail

/-- A list of function-call parts has no first text part. -/
lemma no_text_first (ps : List Part) (h : ∀ p ∈ ps, Part.isFunctionCall p = true) :
    firstTextValue ps = "" := by
  induction ps with
  | nil => rfl
  | cons p rest ih =>
    have htail := ih fun q hq => h q (List.mem_cons_of_mem _ hq)
    cases p with
    | text t => exact absurd (h _ (List.mem_cons_self _ _)) (by simp [Part.isFunctionCall])
    | str s => exact absurd (h _ (List.mem_cons_self _ _)) (by simp [Part.isFunctionCall])
    | inlineData m d => simpa [firstTextValue, List.findSome?_cons] using htail
    | functionCall n args => simpa [firstTextValue, List.findSome?_cons] using htail
    | functionResponse n r => simpa [firstTextValue, List.findSome?_cons] using htail
    | other => simpa [firstTextValue, List.findSome?_cons] using htail

/-- On part lists of the assemblers' shape — an optional leading non-empty
text part followed by function-call parts — the source's first-truthy-text
extraction agrees with the first-text-part reading of the claims. -/
lemma extract_eq_first_of_shape (co : Option String) (callParts : List Part)
    (hfc : ∀ p ∈ callParts, Part.isFunctionCall p = true) :
    extractTextContent
        ((match co with
          | some c => if c = "" then [] else [Part.text c]
          | none => []) ++ callParts) =
      firstTextValue
        ((match co with
          | some c => if c = "" then [] else [Part.text c]
          | none => []) ++ callParts) := by
  rcases co with _ | c
  · simp only [List.nil_append]
    rw [no_text_extract _ hfc, no_text_first _ hfc]
  · by_cases hc : c = ""
    · subst hc
      simp [no_text_extract _ hfc, no_text_first _ hfc]
    · simp only [if_neg hc, List.singleton_append]
      simp [extractTextContent, hc, firstTextValue, List.findSome?_cons]

end SePilot

namespace SePilot

/-- C8: a completion without a usage object assembles to zero token counts,
and every assembled response's derived `text` equals the value of its first
text part (empty string when there is none). -/
theorem c8_usage_and_text (completion : ChatCompletion) (resp : GeminiResponse)
    (h : convertToGeminiResponse completion = .ok resp) :
    (completion.usage = none → resp.usageMetadata = some ⟨0, 0, 0⟩) ∧
      resp.text = firstTextValue resp.parts := by
  rcases hch : completion.choices with _ | ⟨choice, crest⟩
  · simp [convertToGeminiResponse, hch] at h
  · rcases hco : choice.message.tool_calls with _ | tcs
    · simp only [convertToGeminiResponse, hch, hco] at h
      rw [Except.ok.injEq] at h
      subst h
      refine ⟨fun hu => by simp [hu], ?_⟩
      rcases hcon : choice.message.content with _ | c
      · rfl
      · by_cases hc : c = ""
        · subst hc; rfl
        · simp [hc, extractTextContent, firstTextValue]
    · simp only [convertToGeminiResponse, hch, hco] at h
      cases hpt : parseToolCalls tcs with
      | error e => rw [hpt] at h; simp at h
      | ok callParts =>
        rw [hpt] at h
        simp only [Except.ok.injEq] at h
        subst h
        have hfc := parseToolCalls_ok_all_fc tcs callParts hpt
        refine ⟨fun hu => by simp [hu], ?_⟩
        rcases hcon : choice.message.content with _ | c
        · simp only [List.nil_append]
          rw [no_text_extract _ hfc, no_text_first _ hfc]
        · by_cases hc : c = ""
          · subst hc
            simp [no_text_extract _ hfc, no_text_first _ hfc]
          · simp only [if_neg hc, List.singleton_append]
            simp [extractTextContent, hc, firstTextValue, List.findSome?_cons]

/-- C8 witness: a completion with text content and no usage object. -/
theorem c8_usage_and_text_witness :
    (c8wCompletion.usage = none → c8wResponse.usageMetadata = some ⟨0, 0, 0⟩) ∧
      c8wResponse.text = firstTextValue c8wResponse.parts :=
  c8_usage_and_text c8wCompletion c8wResponse rfl

/-- C5 (amended): a function tool call with present, non-empty, invalid-JSON
arguments **in the completion's first choice** makes the Response Assembler
fail with the propagated parse error (no canonical response); when every
function tool call of the completion has valid (or empty) arguments, no such
error is raised. -/
theorem c5_malformed_tool_args (completion : ChatCompletion) :
    (∀ choice crest, completion.choices = choice :: crest →
      ∀ tcs, choice.message.tool_calls = some tcs →
      ∀ tc, tc ∈ tcs → malformedArgs tc = true →
      ∃ s, convertToGeminiResponse completion = .error (AssemblerError.badArgsJson s)) ∧
    ((∀ choice ∈ completion.choices, ∀ tcs, choice.message.tool_calls = some tcs →
        ∀ tc ∈ tcs, malformedArgs tc = false) →
      ∀ s, convertToGeminiResponse completion ≠ .error (AssemblerError.badArgsJson s)) := by
  constructor
  · intro choice crest hch tcs hco tc hmem hmal
    obtain ⟨s, hs⟩ := parseToolCalls_error_of_malformed tcs ⟨tc, hmem, hmal⟩
    refine ⟨s, ?_⟩
    simp [convertToGeminiResponse, hch, hco, hs]
  · intro hall s hcontra
    rcases hch : completion.choices with _ | ⟨choice, crest⟩
    · simp [convertToGeminiResponse, hch] at hcontra
    · rcases hco : choice.message.tool_calls with _ | tcs
      · simp [convertToGeminiResponse, hch, hco] at hcontra
      · obtain ⟨ps, hps⟩ := parseToolCalls_ok_of_wellformed tcs
          (hall choice (by rw [hch]; exact List.mem_cons_self _ _) tcs hco)
        simp [convertToGeminiResponse, hch, hco, hps] at hcontra

/-- C5 witness: a first-choice malformed function tool call makes the
assembler fail. -/
theorem c5_malformed_tool_args_witness :
    ∃ s, convertToGeminiResponse c5witCompletion = .error (AssemblerError.badArgsJson s) :=
  (c5_malformed_tool_args c5witCompletion).1
    ⟨⟨none, some [CompToolCall.function "id1" "f" "oops"]⟩⟩ [] rfl
    [CompToolCall.function "id1" "f" "oops"] rfl
    (CompToolCall.function "id1" "f" "oops") (by decide) rfl

/-- C5 counterexample: the claim quantifies over the whole completion, but the
assembler reads only the first choice — a completion containing a malformed
function tool call in its second choice assembles successfully. -/
theorem c5_malformed_tool_args_counterexample :
    malformedArgs (CompToolCall.function "id1" "f" "not json") = true ∧
      c5cexCompletion.choices.map (fun ch => ch.message.tool_calls) =
        [none, some [CompToolCall.function "id1" "f" "not json"]] ∧
      convertToGeminiResponse c5cexCompletion =
        .ok ⟨"model", [Part.text "hi"], some ⟨0, 0, 0⟩, "hi"⟩ :=
  ⟨rfl, rfl, rfl⟩

/-- Tool-call deltas whose function name is absent or empty are skipped
entirely (no part, no argument parsing). -/
lemma streamToolParts_all_falsy (tcs : List StreamToolCall)
    (h : ∀ tc ∈ tcs, hasTruthyName tc = false) :
    streamToolParts tcs = .ok [] := by
  induction tcs with
  | nil => rfl
  | cons tc rest ih =>
    have h0 := h _ (List.mem_cons_self _ _)
    have hrest := ih fun tc2 hm2 => h _ (List.mem_cons_of_mem _ hm2)
    obtain ⟨f?⟩ := tc
    cases f? with
    | none => simpa [streamToolParts] using hrest
    | some f =>
      rcases hn : f.name with _ | n
      · simp [streamToolParts, hn, hrest]
      · have hne : n = "" := by
          simp [hasTruthyName, hn] at h0
          exact h0
        simp [streamToolParts, hn, hne, hrest]

/-- On success the stream tool-call loop emits one function-call part per
truthy-named delta, and nothing else. -/
lemma streamToolParts_ok_spec (tcs : List StreamToolCall) (ps : List Part)
    (h : streamToolParts tcs = .ok ps) :
    ps.length = (tcs.filter hasTruthyName).length ∧
      ∀ p ∈ ps, Part.isFunctionCall p = true := by
  induction tcs generalizing ps with
  | nil =>
    simp only [streamToolParts, Except.ok.injEq] at h
    subst h; simp
  | cons tc rest ih =>
    obtain ⟨f?⟩ := tc
    cases f? with
    | none =>
      have := ih ps (by simpa [streamToolParts] using h)
      simpa [List.filter_cons, hasTruthyName] using this
    | some f =>
      rcases hn : f.name with _ | n
      · simp only [streamToolParts, hn] at h
        have := ih ps h
        simpa [List.filter_cons, hasTruthyName, hn] using this
      · by_cases hne : n = ""
        · simp only [streamToolParts, hn, if_pos hne] at h
          have := ih ps h
          simpa [List.filter_cons, hasTruthyName, hn, hne] using this
        · simp only [streamToolParts, hn, if_neg hne] at h
          have step : ∀ (j : Json) (qs : List Part), streamToolParts rest = .ok qs →
              ps = Part.functionCall n j :: qs →
              ps.length =
                  ((⟨some f⟩ :: rest : List StreamToolCall).filter hasTruthyName).length ∧
                ∀ p ∈ ps, Part.isFunctionCall p = true := by
            intro j qs hr hps
            subst hps
            obtain ⟨hl, hf⟩ := ih qs hr
            refine ⟨by simp [List.filter_cons, hasTruthyName, hn, hne, hl], ?_⟩
            intro p hp
            rcases List.mem_cons.mp hp with rfl | hm2
            · rfl
            · exact hf p hm2
          rcases ha : f.arguments with _ | a
          · rw [ha] at h
            cases hr : streamToolParts rest with
            | error e => rw [hr] at h; simp [Except.map] at h
            | ok qs =>
              rw [hr] at h
              simp only [Except.map, Except.ok.injEq] at h
              exact step (Json.obj []) qs hr h.symm
          · rw [ha] at h
            simp only [Except.map] at h
            by_cases hae : a = ""
            · rw [if_pos hae] at h
              cases hr : streamToolParts rest with
              | error e => rw [hr] at h; simp [Except.map] at h
              | ok qs =>
                rw [hr] at h
                simp only [Except.map, Except.ok.injEq] at h
                exact step (Json.obj []) qs hr h.symm
            · rw [if_neg hae] at h
              cases hpa : Json.parse a with
              | none => rw [hpa] at h; simp at h
              | some j =>
                rw [hpa] at h
                cases hr : streamToolParts rest with
                | error e => rw [hr] at h; simp [Except.map] at h
                | ok qs =>
                  rw [hr] at h
                  simp only [Except.map, Except.ok.injEq] at h
                  exact step j qs hr h.symm

end SePilot

namespace SePilot

/-- C9: stream tool-call deltas with an absent or empty function name are
silently discarded — they produce no function-call part (and their argument
fragments are never parsed) — so a translated stream delta carries exactly one
function-call part per truthy-named tool-call delta of the chunk. -/
theorem c9_unnamed_tool_deltas :
    (∀ tcs, (∀ tc ∈ tcs, hasTruthyName tc = false) → streamToolParts tcs = .ok []) ∧
      (∀ chunk resp, convertStreamChunkToGeminiResponse chunk = .ok resp →
        (resp.parts.filter Part.isFunctionCall).length =
          ((deltaToolCalls chunk).filter hasTruthyName).length) := by
  refine ⟨streamToolParts_all_falsy, ?_⟩
  intro chunk resp h
  rcases htc : (chunk.choices.head?.bind StreamChoice.delta).bind StreamDelta.tool_calls
    with _ | tcs
  · simp only [convertStreamChunkToGeminiResponse, htc] at h
    rw [Except.ok.injEq] at h
    subst h
    have hdelta : deltaToolCalls chunk = [] := by simp [deltaToolCalls, htc]
    rw [hdelta]
    rcases hcc : (chunk.choices.head?.bind StreamChoice.delta).bind StreamDelta.content
      with _ | c
    · simp
    · by_cases hc : c = ""
      · subst hc; simp
      · simp [hc, Part.isFunctionCall]
  · simp only [convertStreamChunkToGeminiResponse, htc] at h
    cases hr : streamToolParts tcs with
    | error e => rw [hr] at h; simp at h
    | ok callParts =>
      rw [hr] at h
      simp only [Except.ok.injEq] at h
      subst h
      obtain ⟨hl, hfc⟩ := streamToolParts_ok_spec tcs callParts hr
      have hdelta : deltaToolCalls chunk = tcs := by simp [deltaToolCalls, htc]
      rw [hdelta]
      have hcp : callParts.filter Part.isFunctionCall = callParts :=
        List.filter_eq_self.mpr hfc
      rcases hcc : (chunk.choices.head?.bind StreamChoice.delta).bind StreamDelta.content
        with _ | c
      · simpa [hcp] using hl
      · by_cases hc : c = ""
        · subst hc; simpa [hcp] using hl
        · simp [hc, Part.isFunctionCall, hcp, hl]

/-- C9 witness: a delta whose function name is empty and whose arguments
fragment is not valid JSON yields no part and no error. -/
theorem c9_unnamed_tool_deltas_witness :
    streamToolParts [⟨some ⟨some "", some "not valid"⟩⟩, ⟨none⟩] = .ok [] :=
  c9_unnamed_tool_deltas.1 [⟨some ⟨some "", some "not valid"⟩⟩, ⟨none⟩] (by decide)

end SePilot
